import Mathlib

/-!
Shallow embedding of `src/code/showcase/framework/src/lib.rs`: the demo-host
framework (Display, CameraUniform, UniformBinding, the App lifecycle state
machine, and the window/device event dispatcher).

Scalar values (`f32`, `f64`) are abstracted to `ℚ`; the claims settled here are
structural (which fields are set, which product order is computed, which
commands are recorded, which hooks are invoked), not numerical.
-/

namespace Framework

/-- cgmath `Vector4<f32>`, scalars abstracted to `ℚ`. -/
structure Vector4 where
  x : ℚ
  y : ℚ
  z : ℚ
  w : ℚ
deriving DecidableEq

/-- cgmath `Point3<f32>`, scalars abstracted to `ℚ`. -/
structure Point3 where
  x : ℚ
  y : ℚ
  z : ℚ
deriving DecidableEq

/-- cgmath `Point3::to_homogeneous`: `(x, y, z, 1)`. -/
def Point3.to_homogeneous (p : Point3) : Vector4 :=
  ⟨p.x, p.y, p.z, 1⟩

/-- cgmath `Matrix4<f32>`: four columns (cgmath is column-major). -/
structure Matrix4 where
  x : Vector4
  y : Vector4
  z : Vector4
  w : Vector4
deriving DecidableEq

def Vector4.smul (c : ℚ) (v : Vector4) : Vector4 :=
  ⟨c * v.x, c * v.y, c * v.z, c * v.w⟩

def Vector4.add (a b : Vector4) : Vector4 :=
  ⟨a.x + b.x, a.y + b.y, a.z + b.z, a.w + b.w⟩

/-- cgmath matrix-vector product: linear combination of the columns. -/
def Matrix4.mulVec (m : Matrix4) (v : Vector4) : Vector4 :=
  (Vector4.smul v.x m.x).add ((Vector4.smul v.y m.y).add
    ((Vector4.smul v.z m.z).add (Vector4.smul v.w m.w)))

/-- cgmath `Matrix4 * Matrix4`: the left matrix applied to each column of the right. -/
def Matrix4.mul (a b : Matrix4) : Matrix4 :=
  ⟨a.mulVec b.x, a.mulVec b.y, a.mulVec b.z, a.mulVec b.w⟩

def Matrix4.identity : Matrix4 :=
  ⟨⟨1, 0, 0, 0⟩, ⟨0, 1, 0, 0⟩, ⟨0, 0, 1, 0⟩, ⟨0, 0, 0, 1⟩⟩

def Vector4.zero : Vector4 := ⟨0, 0, 0, 0⟩

/-! ## wgpu resource model -/

/-- wgpu `BufferUsages` flags used by the framework. -/
inductive BufferUsage where
  | COPY_DST
  | UNIFORM
  | COPY_SRC
deriving DecidableEq

/-- A wgpu buffer: identity (allocation order), byte size, usage flags. -/
structure Buffer where
  id : Nat
  size : Nat
  usage : List BufferUsage
deriving DecidableEq

/-- The wgpu device, modelled as an allocator of fresh buffer ids. -/
structure Device where
  nextBufferId : Nat
deriving DecidableEq

/-- wgpu `DeviceExt::create_buffer_init`: allocates a fresh buffer holding the
given contents (tracked by byte size) with the given usage flags. -/
def Device.create_buffer_init (d : Device) (contentsSize : Nat)
    (usage : List BufferUsage) : Buffer × Device :=
  (⟨d.nextBufferId, contentsSize, usage⟩, ⟨d.nextBufferId + 1⟩)

/-- A command recorded on a wgpu `CommandEncoder`. -/
inductive Command where
  | copyBufferToBuffer (src : Nat) (srcOffset : Nat) (dst : Nat)
      (dstOffset : Nat) (size : Nat)
  | beginRenderPass (id : Nat)
deriving DecidableEq

def Command.isCopy : Command → Bool
  | .copyBufferToBuffer _ _ _ _ _ => true
  | _ => false

/-- `c1` is recorded strictly before `c2` in the encoder's command list. -/
def recordedBefore (c1 c2 : Command) (l : List Command) : Prop :=
  ∃ l1 l2 l3, l = l1 ++ c1 :: l2 ++ c2 :: l3

/-- wgpu `TextureFormat`, abstracted to an identity plus its sRGB flag. -/
structure TextureFormat where
  id : Nat
  srgb : Bool
deriving DecidableEq

/-- wgpu `TextureFormat::is_srgb`. -/
def TextureFormat.is_srgb (f : TextureFormat) : Bool := f.srgb

structure PresentMode where
  id : Nat
deriving DecidableEq

structure AlphaMode where
  id : Nat
deriving DecidableEq

inductive TextureUsages where
  | RENDER_ATTACHMENT
deriving DecidableEq

/-- wgpu `SurfaceConfiguration` (the fields written by `Display::new`). -/
structure SurfaceConfiguration where
  usage : TextureUsages
  format : TextureFormat
  width : Nat
  height : Nat
  present_mode : PresentMode
  alpha_mode : AlphaMode
  view_formats : List TextureFormat
  desired_maximum_frame_latency : Nat
deriving DecidableEq

/-- wgpu `SurfaceCapabilities` as queried from the surface. -/
structure SurfaceCapabilities where
  formats : List TextureFormat
  present_modes : List PresentMode
  alpha_modes : List AlphaMode
deriving DecidableEq

/-! ## UniformData / CameraUniform -/

/-- `UniformData`: `repr(C)`, `view_position: Vector4<f32>`, `view_proj: Matrix4<f32>`. -/
structure UniformData where
  view_position : Vector4
  view_proj : Matrix4
deriving DecidableEq

/-- Byte size of an `f32`. -/
def sizeOfF32 : Nat := 4

/-- Byte size of `cgmath::Vector4<f32>`: four `f32`. -/
def sizeOfVector4 : Nat := 4 * sizeOfF32

/-- Byte size of `cgmath::Matrix4<f32>`: sixteen `f32`. -/
def sizeOfMatrix4 : Nat := 16 * sizeOfF32

/-- `std::mem::size_of::<UniformData>()`: `repr(C)` with no padding, the two
fields tightly packed. -/
def sizeOfUniformData : Nat := sizeOfVector4 + sizeOfMatrix4

/-- Modelled from the spec: the camera lives in the `camera` module, which is
not part of the host core's visible source; the spec treats its view matrix
abstractly ("for any camera position P, view matrix V"). The model therefore
carries the position together with the opaque result of `calc_matrix`. -/
structure Camera where
  position : Point3
  viewMatrix : Matrix4
deriving DecidableEq

/-- Modelled from the spec: `Camera::calc_matrix` returns the camera's view matrix. -/
def Camera.calc_matrix (c : Camera) : Matrix4 := c.viewMatrix

/-- Modelled from the spec: the projection, abstract over its matrix ("any projection"). -/
structure Projection where
  projMatrix : Matrix4
deriving DecidableEq

/-- Modelled from the spec: `Projection::calc_matrix` returns the projection matrix. -/
def Projection.calc_matrix (p : Projection) : Matrix4 := p.projMatrix

/-- `CameraUniform`: the CPU-side data plus its backing GPU buffer. -/
structure CameraUniform where
  data : UniformData
  buffer : Buffer
deriving DecidableEq

/-- `CameraUniform::new`: zero position, identity matrix, buffer sized to the
uniform struct with COPY_DST | UNIFORM usage. -/
def CameraUniform.new (device : Device) : CameraUniform × Device :=
  let data : UniformData := ⟨Vector4.zero, Matrix4.identity⟩
  let r := device.create_buffer_init sizeOfUniformData [.COPY_DST, .UNIFORM]
  (⟨data, r.1⟩, r.2)

/-- `CameraUniform::update_view_proj`: `view_position = camera.position.to_homogeneous()`,
`view_proj = projection.calc_matrix() * camera.calc_matrix()`. -/
def CameraUniform.update_view_proj (self : CameraUniform) (camera : Camera)
    (projection : Projection) : CameraUniform :=
  { self with
    data := { view_position := camera.position.to_homogeneous,
              view_proj := Matrix4.mul projection.calc_matrix camera.calc_matrix } }

/-- `CameraUniform::update_buffer`: creates a transient COPY_SRC staging buffer
holding the current data and records one `copy_buffer_to_buffer` of
`size_of::<UniformData>()` bytes, offsets 0 → 0, on the given encoder. -/
def CameraUniform.update_buffer (self : CameraUniform) (device : Device)
    (encoder : List Command) : Device × List Command :=
  let r := device.create_buffer_init sizeOfUniformData [.COPY_SRC]
  let staging_buffer := r.1
  (r.2, encoder ++ [Command.copyBufferToBuffer staging_buffer.id 0 self.buffer.id 0
    sizeOfUniformData])

/-! ## Display -/

/-- `Display`: surface configuration, owning window, and what the presentation
surface was last configured with (`none` until the first `surface.configure`). -/
structure Display where
  config : SurfaceConfiguration
  windowId : Nat
  surfaceConfigured : Option SurfaceConfiguration
deriving DecidableEq

/-- The surface-configuration construction inside `Display::new`: the format is
`formats.find(is_srgb).unwrap_or(formats[0])`; indexing `formats[0]`,
`present_modes[0]`, `alpha_modes[0]` panics (`none`) on an empty list. -/
def Display.newConfig (caps : SurfaceCapabilities) (width height : Nat) :
    Option SurfaceConfiguration :=
  match caps.formats.head?, caps.present_modes.head?, caps.alpha_modes.head? with
  | some f0, some pm0, some am0 =>
      some { usage := .RENDER_ATTACHMENT,
             format := (caps.formats.find? (fun f => f.is_srgb)).getD f0,
             width := width, height := height,
             present_mode := pm0, alpha_mode := am0,
             view_formats := [],
             desired_maximum_frame_latency := 2 }
  | _, _, _ => none

/-- An opaque error value (anyhow::Error). -/
structure AppError where
  code : Nat
deriving DecidableEq

/-- `Display::new`: each fallible step (`create_surface`, `request_adapter`,
`request_device`) is `.unwrap()`ed — failure panics (`none`) rather than
returning `Err`. The environment's outcomes are passed in as `Option`s. The
single `return` site is `Ok(Self { ... })`; the surface is not configured here. -/
def Display.new (windowId : Nat) (width height : Nat)
    (surfaceRes adapterRes deviceRes : Option Unit)
    (caps : SurfaceCapabilities) : Option (Except AppError Display) :=
  match surfaceRes with
  | none => none
  | some _ =>
    match adapterRes with
    | none => none
    | some _ =>
      match deviceRes with
      | none => none
      | some _ =>
        match Display.newConfig caps width height with
        | none => none
        | some config =>
            some (Except.ok { config := config, windowId := windowId,
                              surfaceConfigured := none })

/-- `Display::resize`: sets `config.width`, `config.height`, then
`surface.configure(&device, &config)` — synchronously, in the same call. -/
def Display.resize (d : Display) (width height : Nat) : Display :=
  let config := { d.config with width := width, height := height }
  { d with config := config, surfaceConfigured := some config }

/-! ## winit events and the App lifecycle state machine -/

/-- winit `KeyCode` (the physical key), abstracted to Escape plus an opaque rest. -/
inductive KeyCode where
  | Escape
  | OtherKey (n : Nat)
deriving DecidableEq

inductive ElementState where
  | Pressed
  | Released
deriving DecidableEq

/-- winit `ElementState::is_pressed`. -/
def ElementState.is_pressed : ElementState → Bool
  | .Pressed => true
  | .Released => false

/-- winit `PhysicalKey`: a known key code or an unidentified scancode. -/
inductive PhysicalKey where
  | Code (key : KeyCode)
  | Unidentified (n : Nat)
deriving DecidableEq

/-- winit `KeyEvent` (the fields the dispatcher reads). -/
structure KeyEvent where
  state : ElementState
  physical_key : PhysicalKey
deriving DecidableEq

/-- winit `WindowEvent` (the variants the dispatcher distinguishes). -/
inductive WindowEvent where
  | CloseRequested
  | KeyboardInput (ev : KeyEvent)
  | Resized (width height : Nat)
  | RedrawRequested
  | OtherWindowEvent (n : Nat)
deriving DecidableEq

/-- winit `DeviceEvent` (the variants the dispatcher distinguishes). -/
inductive DeviceEvent where
  | MouseMotion (dx dy : ℚ)
  | OtherDeviceEvent (n : Nat)
deriving DecidableEq

/-- One invocation of a `Demo` hook; the demo is modelled by the log of the
hook calls the dispatcher makes on it, in order. -/
inductive DemoCall where
  | process_mouse (dx dy : ℚ)
  | process_keyboard (key : KeyCode) (pressed : Bool)
  | resizeHook
  | render
deriving DecidableEq

/-- The two-state lifecycle machine `App<D>`. -/
inductive App where
  | Uninitialized
  | Initialized (display : Display) (demo : List DemoCall)
deriving DecidableEq

def App.isInitialized : App → Bool
  | .Uninitialized => false
  | .Initialized _ _ => true

/-- The window owned by the `Display`, when initialized. -/
def App.ownedWindow : App → Option Nat
  | .Uninitialized => none
  | .Initialized d _ => some d.windowId

def App.demoCalls : App → List DemoCall
  | .Uninitialized => []
  | .Initialized _ dm => dm

/-- `App::resumed`: unconditionally creates a window, blocks on `Display::new`
(unwrap), calls `D::init` (unwrap), and overwrites `*self` with
`Initialized { display, demo }`. The freshly created display is supplied by the
environment; the new demo's call log starts empty. -/
def App.resumed (_self : App) (freshDisplay : Display) : App :=
  App.Initialized freshDisplay []

/-- `App::window_event`: active only when `Initialized` and only for the owned
window's id. Returns the new state and whether `event_loop.exit()` was called.
The match arms are in source order: (CloseRequested | Escape key-down) → exit;
other keyboard input with a known code → `process_keyboard`; `Resized` →
`display.resize`; `RedrawRequested` → request another redraw then `render`. -/
def App.window_event (self : App) (window_id : Nat) (event : WindowEvent) :
    App × Bool :=
  match self with
  | .Uninitialized => (self, false)
  | .Initialized display demo =>
    if window_id = display.windowId then
      match event with
      | .CloseRequested => (.Initialized display demo, true)
      | .KeyboardInput ⟨.Pressed, .Code .Escape⟩ =>
          (.Initialized display demo, true)
      | .KeyboardInput ⟨state, .Code key_code⟩ =>
          (.Initialized display
            (demo ++ [.process_keyboard key_code state.is_pressed]), false)
      | .Resized w h => (.Initialized (display.resize w h) demo, false)
      | .RedrawRequested =>
          (.Initialized display (demo ++ [.render]), false)
      | _ => (.Initialized display demo, false)
    else (.Initialized display demo, false)

/-- `App::device_event`: when `Initialized`, forwards `MouseMotion` deltas to
`process_mouse`; every other device event, and any state, is a no-op. -/
def App.device_event (self : App) (event : DeviceEvent) : App :=
  match self with
  | .Initialized display demo =>
    match event with
    | .MouseMotion dx dy =>
        .Initialized display (demo ++ [.process_mouse dx dy])
    | .OtherDeviceEvent _ => .Initialized display demo
  | .Uninitialized => self

/-- A signal delivered by the host event loop to the `ApplicationHandler`. -/
inductive HostEvent where
  | Resumed (freshDisplay : Display)
  | WindowEvt (window_id : Nat) (event : WindowEvent)
  | DeviceEvt (event : DeviceEvent)
deriving DecidableEq

/-- The host-loop state: the handler plus the loop's exit flag, with two ghost
counters instrumenting the run: how many times `D::init` was invoked and how
many times the `Uninitialized → Initialized` transition fired. -/
structure LoopState where
  app : App
  exiting : Bool
  initCalls : Nat
  transCount : Nat
deriving DecidableEq

/-- Modelled from the spec: the host event loop (winit, external code) delivers
signals one at a time and, once `exit()` has been called, enters its exit state
and dispatches nothing further. Each dispatched signal goes to the matching
handler method; `resumed` invokes `D::init` exactly once per dispatch. -/
def step (s : LoopState) (e : HostEvent) : LoopState :=
  if s.exiting then s
  else
    match e with
    | .Resumed d =>
        { app := s.app.resumed d, exiting := s.exiting,
          initCalls := s.initCalls + 1,
          transCount := s.transCount + (if s.app.isInitialized then 0 else 1) }
    | .WindowEvt wid ev =>
        let r := s.app.window_event wid ev
        { s with app := r.1, exiting := r.2 }
    | .DeviceEvt ev => { s with app := s.app.device_event ev }

/-- `run`: the loop starts `Uninitialized`, not exiting, and folds the host's
signals through the handler. -/
def run (events : List HostEvent) : LoopState :=
  events.foldl step ⟨App.Uninitialized, false, 0, 0⟩

/-- Number of resume/activate signals in a run's delivery list. -/
def countResumed : List HostEvent → Nat
  | [] => 0
  | .Resumed _ :: rest => countResumed rest + 1
  | .WindowEvt _ _ :: rest => countResumed rest
  | .DeviceEvt _ :: rest => countResumed rest

/-! ## Sample values used by witnesses -/

def sampleDevice : Device := ⟨1⟩

def sampleUniform : CameraUniform :=
  ⟨⟨Vector4.zero, Matrix4.identity⟩, ⟨0, sizeOfUniformData, [.COPY_DST, .UNIFORM]⟩⟩

def sampleConfig : SurfaceConfiguration :=
  ⟨.RENDER_ATTACHMENT, ⟨0, true⟩, 640, 480, ⟨0⟩, ⟨0⟩, [], 2⟩

def sampleDisplay : Display := ⟨sampleConfig, 7, none⟩

/-- A matrix with a single 1 entry at row 1, column 2 (columns listed in order). -/
def matE12 : Matrix4 := ⟨Vector4.zero, ⟨1, 0, 0, 0⟩, Vector4.zero, Vector4.zero⟩

/-- A matrix with a single 1 entry at row 2, column 1. -/
def matE21 : Matrix4 := ⟨⟨0, 1, 0, 0⟩, Vector4.zero, Vector4.zero, Vector4.zero⟩

def sampleCamera : Camera := ⟨⟨0, 0, 0⟩, matE21⟩

def sampleProjection : Projection := ⟨matE12⟩

/-! ## Claims -/

/-- C1: `CameraUniform::update_view_proj` sets `view_position` to the camera's
position promoted to homogeneous coordinates `(P.x, P.y, P.z, 1)` and sets
`view_proj` to the projection matrix multiplied by the view matrix, in exactly
the order projection · view; the second conjunct exhibits inputs on which the
reversed order would give a different matrix. -/
theorem update_view_proj_spec :
    (∀ (u : CameraUniform) (c : Camera) (p : Projection),
      ((u.update_view_proj c p).data.view_position = Point3.to_homogeneous c.position ∧
        Point3.to_homogeneous c.position =
          ⟨c.position.x, c.position.y, c.position.z, 1⟩) ∧
      (u.update_view_proj c p).data.view_proj =
        Matrix4.mul p.calc_matrix c.calc_matrix) ∧
    (∃ (u : CameraUniform) (c : Camera) (p : Projection),
      (u.update_view_proj c p).data.view_proj ≠
        Matrix4.mul c.calc_matrix p.calc_matrix) := by
  refine ⟨fun u c p => ⟨⟨rfl, rfl⟩, rfl⟩,
    sampleUniform, sampleCamera, sampleProjection, ?_⟩
  intro hEq
  have h := congrArg (fun m : Matrix4 => m.x.x) hEq
  norm_num [CameraUniform.update_view_proj, Matrix4.mul, Matrix4.mulVec,
    Vector4.smul, Vector4.add, Vector4.zero, sampleCamera, sampleProjection,
    Camera.calc_matrix, Projection.calc_matrix, matE12, matE21,
    sampleUniform] at h

/-- C3: `CameraUniform::update_buffer` records exactly one buffer-to-buffer
copy on the encoder, of byte length `sizeof(view_position) + sizeof(view_proj)`,
from offset 0 of a freshly allocated staging buffer to offset 0 of the
persistent uniform buffer, and that copy precedes every command recorded later
on the same encoder. -/
theorem update_buffer_spec (cu : CameraUniform) (dev : Device)
    (enc : List Command) (hfresh : cu.buffer.id < dev.nextBufferId) :
    ((cu.update_buffer dev enc).2 =
      enc ++ [Command.copyBufferToBuffer dev.nextBufferId 0 cu.buffer.id 0
        sizeOfUniformData]) ∧
    ((cu.update_buffer dev enc).2.filter Command.isCopy).length =
      (enc.filter Command.isCopy).length + 1 ∧
    sizeOfUniformData = sizeOfVector4 + sizeOfMatrix4 ∧
    dev.nextBufferId ≠ cu.buffer.id ∧
    ((cu.update_buffer dev enc).1).nextBufferId = dev.nextBufferId + 1 ∧
    ∀ (later : List Command) (rp : Command), rp ∈ later →
      recordedBefore
        (Command.copyBufferToBuffer dev.nextBufferId 0 cu.buffer.id 0
          sizeOfUniformData)
        rp ((cu.update_buffer dev enc).2 ++ later) := by
  refine ⟨rfl, ?_, rfl, by omega, rfl, ?_⟩
  · simp [CameraUniform.update_buffer, Device.create_buffer_init,
      List.filter_append, Command.isCopy]
  · intro later rp hrp
    obtain ⟨s, t, hst⟩ := List.append_of_mem hrp
    refine ⟨enc, s, t, ?_⟩
    simp [CameraUniform.update_buffer, Device.create_buffer_init, hst]

theorem update_buffer_spec_witness :
    (sampleUniform.update_buffer sampleDevice []).2 =
      [Command.copyBufferToBuffer 1 0 0 0 sizeOfUniformData] :=
  (update_buffer_spec sampleUniform sampleDevice [] (by decide)).1

/-- C4: for width W > 0 and height H > 0, `Display::resize(W, H)` leaves the
stored configuration's width and height exactly (W, H) and reconfigures the
presentation surface to that same configuration synchronously within the call. -/
theorem resize_spec (d : Display) (w h : Nat) (_hw : 0 < w) (_hh : 0 < h) :
    (d.resize w h).config.width = w ∧ (d.resize w h).config.height = h ∧
    (d.resize w h).surfaceConfigured = some ((d.resize w h).config) :=
  ⟨rfl, rfl, rfl⟩

theorem resize_spec_witness :
    (sampleDisplay.resize 800 600).config.width = 800 :=
  (resize_spec sampleDisplay 800 600 (by decide) (by decide)).1

/-- Auxiliary: a successful `find?` splits the list at the first element
satisfying the predicate. -/
theorem find_first_decomp {α : Type} (p : α → Bool) :
    ∀ (l : List α) (a : α), l.find? p = some a →
      ∃ s t, l = s ++ a :: t ∧ p a = true ∧ ∀ b ∈ s, p b = false := by
  intro l
  induction l with
  | nil => intro a h; simp [List.find?] at h
  | cons x xs ih =>
    intro a h
    by_cases hpx : p x = true
    · rw [List.find?_cons_of_pos _ hpx] at h
      refine ⟨[], xs, ?_, ?_, by simp⟩
      · simp [(Option.some_inj.mp h)]
      · rw [← Option.some_inj.mp h]; exact hpx
    · rw [List.find?_cons_of_neg _ hpx] at h
      obtain ⟨s, t, hl, hpa, hs⟩ := ih a h
      refine ⟨x :: s, t, by simp [hl], hpa, ?_⟩
      intro b hb
      rcases List.mem_cons.mp hb with hb | hb
      · simp [hb, Bool.eq_false_iff.mpr hpx]
      · exact hs b hb

/-- C6: `Display::new` selects the first supported surface format flagged as
sRGB, falling back to the first listed format when none is sRGB, and builds the
configuration with render-attachment usage, the first listed present mode, the
first listed alpha mode, no extra view formats, and a desired maximum frame
latency of 2. -/
theorem display_new_format_choice (caps : SurfaceCapabilities) (w h : Nat)
    (cfg : SurfaceConfiguration)
    (hc : Display.newConfig caps w h = some cfg) :
    ((∃ s t, caps.formats = s ++ cfg.format :: t ∧ cfg.format.is_srgb = true ∧
        ∀ f ∈ s, f.is_srgb = false) ∨
      ((∀ f ∈ caps.formats, f.is_srgb = false) ∧
        caps.formats.head? = some cfg.format)) ∧
    cfg.usage = .RENDER_ATTACHMENT ∧
    caps.present_modes.head? = some cfg.present_mode ∧
    caps.alpha_modes.head? = some cfg.alpha_mode ∧
    cfg.view_formats = [] ∧
    cfg.width = w ∧ cfg.height = h ∧
    cfg.desired_maximum_frame_latency = 2 := by
  unfold Display.newConfig at hc
  cases hf : caps.formats.head? with
  | none => rw [hf] at hc; simp at hc
  | some f0 =>
    cases hpm : caps.present_modes.head? with
    | none => rw [hf, hpm] at hc; simp at hc
    | some pm0 =>
      cases ham : caps.alpha_modes.head? with
      | none => rw [hf, hpm, ham] at hc; simp at hc
      | some am0 =>
        rw [hf, hpm, ham] at hc
        simp only [Option.some_inj] at hc
        subst hc
        refine ⟨?_, rfl, rfl, rfl, rfl, rfl, rfl, rfl⟩
        cases hfind : caps.formats.find? (fun f => f.is_srgb) with
        | none =>
          right
          constructor
          · intro f hfmem
            have := List.find?_eq_none.mp hfind f hfmem
            simpa using this
          · simp only [hfind, Option.getD_none]
        | some fs =>
          left
          obtain ⟨s, t, hl, hpa, hs⟩ := find_first_decomp _ caps.formats fs hfind
          exact ⟨s, t, by simpa [hfind] using hl, by simpa [hfind] using hpa,
            fun b hb => hs b hb⟩

theorem display_new_format_choice_witness :
    sampleConfig.desired_maximum_frame_latency = 2 :=
  (display_new_format_choice ⟨[⟨1, false⟩, ⟨0, true⟩], [⟨0⟩], [⟨0⟩]⟩ 640 480
    sampleConfig rfl).2.2.2.2.2.2.2

/-- C10: `Display::new` never returns an `Err` value: every internal failure
path panics (modelled as `none`), so whenever it returns at all the result is
`Ok`. -/
theorem display_new_no_error :
    ∀ (sr ar dr : Option Unit) (caps : SurfaceCapabilities) (w h wid : Nat),
      Display.new wid w h sr ar dr caps = none ∨
      ∃ d, Display.new wid w h sr ar dr caps = some (Except.ok d) := by
  intro sr ar dr caps w h wid
  cases sr with
  | none => left; rfl
  | some _ =>
    cases ar with
    | none => left; rfl
    | some _ =>
      cases dr with
      | none => left; rfl
      | some _ =>
        cases hcfg : Display.newConfig caps w h with
        | none => left; simp [Display.new, hcfg]
        | some config =>
          right
          exact ⟨⟨config, wid, none⟩, by simp [Display.new, hcfg]⟩

/-! ## Event-loop lemmas -/

/-- Once the loop is in its exit state, a delivered signal changes nothing. -/
theorem step_of_exiting (s : LoopState) (e : HostEvent) (h : s.exiting = true) :
    step s e = s := by
  simp [step, h]

/-- Once the loop is in its exit state, the whole remaining run changes nothing. -/
theorem foldl_step_of_exiting (rest : List HostEvent) :
    ∀ s : LoopState, s.exiting = true → List.foldl step s rest = s := by
  induction rest with
  | nil => intro s _; rfl
  | cons e rest ih =>
    intro s h
    rw [List.foldl_cons, step_of_exiting s e h]
    exact ih s h

/-- Window events never change the ghost counters. -/
theorem step_window_counts (s : LoopState) (wid : Nat) (ev : WindowEvent) :
    (step s (.WindowEvt wid ev)).initCalls = s.initCalls ∧
    (step s (.WindowEvt wid ev)).transCount = s.transCount := by
  by_cases hx : s.exiting = true <;> simp [step, hx]

/-- Device events never change the ghost counters. -/
theorem step_device_counts (s : LoopState) (ev : DeviceEvent) :
    (step s (.DeviceEvt ev)).initCalls = s.initCalls ∧
    (step s (.DeviceEvt ev)).transCount = s.transCount := by
  by_cases hx : s.exiting = true <;> simp [step, hx]

/-- A run segment containing no resume signal leaves both ghost counters fixed. -/
theorem foldl_counts (rest : List HostEvent) :
    ∀ s : LoopState, countResumed rest = 0 →
      (List.foldl step s rest).initCalls = s.initCalls ∧
      (List.foldl step s rest).transCount = s.transCount := by
  induction rest with
  | nil => intro s _; exact ⟨rfl, rfl⟩
  | cons e rest ih =>
    intro s h
    cases e with
    | Resumed d => simp [countResumed] at h
    | WindowEvt wid ev =>
      have hc : countResumed rest = 0 := by simpa [countResumed] using h
      have h1 := step_window_counts s wid ev
      have h2 := ih (step s (.WindowEvt wid ev)) hc
      rw [List.foldl_cons]
      exact ⟨by rw [h2.1, h1.1], by rw [h2.2, h1.2]⟩
    | DeviceEvt ev =>
      have hc : countResumed rest = 0 := by simpa [countResumed] using h
      have h1 := step_device_counts s ev
      have h2 := ih (step s (.DeviceEvt ev)) hc
      rw [List.foldl_cons]
      exact ⟨by rw [h2.1, h1.1], by rw [h2.2, h1.2]⟩

/-- Before initialization, window and device events leave the loop state
entirely unchanged. -/
theorem step_uninit_frozen (s : LoopState) (hu : s.app = .Uninitialized)
    (hx : s.exiting = false) :
    (∀ wid ev, step s (.WindowEvt wid ev) = s) ∧
    (∀ ev, step s (.DeviceEvt ev) = s) := by
  obtain ⟨app, ex, ic, tc⟩ := s
  simp only at hu hx
  subst hu
  subst hx
  constructor
  · intro wid ev
    simp [step, App.window_event]
  · intro ev
    simp [step, App.device_event]

/-- From an uninitialized, non-exiting state, a run delivering exactly one
resume signal increments both ghost counters exactly once. -/
theorem run_from_uninit (events : List HostEvent) :
    ∀ s : LoopState, s.app = .Uninitialized → s.exiting = false →
      countResumed events = 1 →
      (List.foldl step s events).initCalls = s.initCalls + 1 ∧
      (List.foldl step s events).transCount = s.transCount + 1 := by
  induction events with
  | nil => intro s _ _ h; simp [countResumed] at h
  | cons e rest ih =>
    intro s hu hx h
    cases e with
    | Resumed d =>
      have hrest : countResumed rest = 0 := by
        have h1 : countResumed rest + 1 = 1 := by simpa [countResumed] using h
        omega
      rw [List.foldl_cons]
      have hstep : step s (.Resumed d) =
          { app := App.Initialized d [], exiting := false,
            initCalls := s.initCalls + 1, transCount := s.transCount + 1 } := by
        simp [step, hx, App.resumed, hu, App.isInitialized]
      rw [hstep]
      have hc := foldl_counts rest
        { app := App.Initialized d [], exiting := false,
          initCalls := s.initCalls + 1, transCount := s.transCount + 1 } hrest
      exact ⟨by rw [hc.1], by rw [hc.2]⟩
    | WindowEvt wid ev =>
      rw [List.foldl_cons, (step_uninit_frozen s hu hx).1 wid ev]
      exact ih s hu hx (by simpa [countResumed] using h)
    | DeviceEvt ev =>
      rw [List.foldl_cons, (step_uninit_frozen s hu hx).2 ev]
      exact ih s hu hx (by simpa [countResumed] using h)

/-- The window-event handler never leaves the Initialized state. -/
theorem window_event_keeps_initialized (display : Display)
    (demo : List DemoCall) (wid : Nat) (ev : WindowEvent) :
    ((App.Initialized display demo).window_event wid ev).1.isInitialized
      = true := by
  simp only [App.window_event]
  split
  · split <;> rfl
  · rfl

/-- The device-event handler never leaves the Initialized state. -/
theorem device_event_keeps_initialized (display : Display)
    (demo : List DemoCall) (ev : DeviceEvent) :
    ((App.Initialized display demo).device_event ev).isInitialized = true := by
  simp only [App.device_event]
  split <;> rfl

/-- C2: across one run of the event loop (a delivery list carrying exactly one
resume signal), the Uninitialized → Initialized transition fires exactly once
and the demo's init hook is invoked exactly once; moreover no step ever takes
the machine out of the Initialized state. -/
theorem lifecycle_once (events : List HostEvent)
    (h : countResumed events = 1) :
    (run events).initCalls = 1 ∧ (run events).transCount = 1 ∧
    ∀ (s : LoopState) (e : HostEvent), s.app.isInitialized = true →
      (step s e).app.isInitialized = true := by
  have hr := run_from_uninit events ⟨App.Uninitialized, false, 0, 0⟩ rfl rfl h
  refine ⟨by simpa [run] using hr.1, by simpa [run] using hr.2, ?_⟩
  intro s e hs
  by_cases hx : s.exiting = true
  · rw [step_of_exiting s e hx]; exact hs
  · cases e with
    | Resumed d => simp [step, hx, App.resumed, App.isInitialized]
    | WindowEvt wid ev =>
      cases happ : s.app with
      | Uninitialized => rw [happ] at hs; simp [App.isInitialized] at hs
      | Initialized display demo =>
        have := window_event_keeps_initialized display demo wid ev
        simp [step, hx, happ, this]
    | DeviceEvt ev =>
      cases happ : s.app with
      | Uninitialized => rw [happ] at hs; simp [App.isInitialized] at hs
      | Initialized display demo =>
        have := device_event_keeps_initialized display demo ev
        simp [step, hx, happ, this]

theorem lifecycle_once_witness :
    (run [HostEvent.Resumed sampleDisplay]).initCalls = 1 :=
  (lifecycle_once [HostEvent.Resumed sampleDisplay] rfl).1

/-- C5: in the Initialized state, a close-request or an Escape key-down event
for the owned window puts the host loop into its exit state, and no further
events are dispatched afterward (the remaining run changes nothing). -/
theorem exit_on_close_or_escape (s : LoopState) (d : Display)
    (dm : List DemoCall) (wid : Nat) (ev : WindowEvent)
    (hs : s.app = .Initialized d dm) (hx : s.exiting = false)
    (hw : wid = d.windowId)
    (hev : ev = .CloseRequested ∨
      ev = .KeyboardInput ⟨.Pressed, .Code .Escape⟩) :
    (step s (.WindowEvt wid ev)).exiting = true ∧
    ∀ rest : List HostEvent,
      List.foldl step (step s (.WindowEvt wid ev)) rest =
        step s (.WindowEvt wid ev) := by
  have hexit : (step s (.WindowEvt wid ev)).exiting = true := by
    rcases hev with hev | hev <;>
      simp [step, hx, hev, App.window_event, hs, hw]
  exact ⟨hexit, fun rest => foldl_step_of_exiting rest _ hexit⟩

theorem exit_on_close_or_escape_witness :
    (step ⟨App.Initialized sampleDisplay [], false, 1, 1⟩
      (.WindowEvt 7 .CloseRequested)).exiting = true :=
  (exit_on_close_or_escape ⟨App.Initialized sampleDisplay [], false, 1, 1⟩
    sampleDisplay [] 7 .CloseRequested rfl rfl rfl (Or.inl rfl)).1

/-- C7: a window-level event whose window identity is not the owned window —
in particular any window event in the Uninitialized state — is dropped with no
effect at all: no demo hook, no Display mutation, no exit. -/
theorem mismatched_window_dropped (s : LoopState) (wid : Nat)
    (ev : WindowEvent) (h : s.app.ownedWindow ≠ some wid) :
    step s (.WindowEvt wid ev) = s := by
  obtain ⟨app, ex, ic, tc⟩ := s
  cases ex with
  | true => exact step_of_exiting _ _ rfl
  | false =>
    cases app with
    | Uninitialized => simp [step, App.window_event]
    | Initialized display demo =>
      have hww : ¬ (wid = display.windowId) := by
        intro hcontra
        exact h (by simp [App.ownedWindow, hcontra])
      simp [step, App.window_event, hww]

theorem mismatched_window_dropped_witness :
    step ⟨App.Uninitialized, false, 0, 0⟩ (.WindowEvt 3 .CloseRequested) =
      ⟨App.Uninitialized, false, 0, 0⟩ :=
  mismatched_window_dropped ⟨App.Uninitialized, false, 0, 0⟩ 3
    .CloseRequested (by decide)

/-- C8: a pointer-motion device event in the Uninitialized state calls no demo
hook and leaves the state unchanged; once Initialized it produces exactly one
`process_mouse(dx, dy)` call; every other device-event kind is ignored. -/
theorem device_event_dispatch :
    (∀ (s : LoopState) (dx dy : ℚ), s.app = .Uninitialized →
      step s (.DeviceEvt (.MouseMotion dx dy)) = s) ∧
    (∀ (s : LoopState) (d : Display) (dm : List DemoCall) (dx dy : ℚ),
      s.exiting = false → s.app = .Initialized d dm →
      (step s (.DeviceEvt (.MouseMotion dx dy))).app =
        .Initialized d (dm ++ [.process_mouse dx dy]) ∧
      (step s (.DeviceEvt (.MouseMotion dx dy))).exiting = false) ∧
    (∀ (a : App) (n : Nat), a.device_event (.OtherDeviceEvent n) = a) := by
  refine ⟨?_, ?_, ?_⟩
  · intro s dx dy hu
    obtain ⟨app, ex, ic, tc⟩ := s
    simp only at hu
    subst hu
    cases ex with
    | true => exact step_of_exiting _ _ rfl
    | false => simp [step, App.device_event]
  · intro s d dm dx dy hx hs
    constructor <;> simp [step, hx, hs, App.device_event]
  · intro a n
    cases a <;> rfl

theorem device_event_dispatch_witness :
    step ⟨App.Uninitialized, false, 0, 0⟩
      (.DeviceEvt (.MouseMotion 1 2)) = ⟨App.Uninitialized, false, 0, 0⟩ :=
  device_event_dispatch.1 ⟨App.Uninitialized, false, 0, 0⟩ 1 2 rfl

/-- C9: an Escape key-release on the owned window in the Initialized state does
not exit the loop and is not dropped: it is forwarded to the demo as
`process_keyboard(Escape, false)`. -/
theorem escape_release_forwarded (s : LoopState) (d : Display)
    (dm : List DemoCall) (wid : Nat)
    (hs : s.app = .Initialized d dm) (hx : s.exiting = false)
    (hw : wid = d.windowId) :
    (step s (.WindowEvt wid
      (.KeyboardInput ⟨.Released, .Code .Escape⟩))).exiting = false ∧
    (step s (.WindowEvt wid
      (.KeyboardInput ⟨.Released, .Code .Escape⟩))).app =
      .Initialized d (dm ++ [.process_keyboard .Escape false]) := by
  constructor <;>
    simp [step, hx, hs, hw, App.window_event, ElementState.is_pressed]

theorem escape_release_forwarded_witness :
    (step ⟨App.Initialized sampleDisplay [], false, 1, 1⟩
      (.WindowEvt 7 (.KeyboardInput ⟨.Released, .Code .Escape⟩))).exiting
      = false :=
  (escape_release_forwarded ⟨App.Initialized sampleDisplay [], false, 1, 1⟩
    sampleDisplay [] 7 rfl rfl rfl).1

end Framework
